import Mathlib

/-!
Shallow embedding of `src/temp_script.py` (repository OnTrack): a single-use
script that reads one source file as a list of lines, scans for a start-marker
line and an end-marker line, and — had it been completed — would have replaced
the delimited region.  The script's locator logic (lines 4–15 of the source) is
embedded faithfully below, including Python's negative-index semantics: after
`start = i - 1` with `i = 0` the while loop evaluates `lines[-1]`, which in
Python reads the last element.

Source (lines 4–15):
  start = None
  for i,line in enumerate(lines):
      if line == START_MARKER:
          start = i-1
          break
  if start is None:
      raise SystemExit('start not found')
  end = start
  while end < len(lines) and lines[end] != END_MARKER:
      end += 1
  if end >= len(lines):
      raise SystemExit('end not found')
-/

namespace OnTrack

/-- The fixed relative path the script reads (source line 2). -/
def targetPath : String := "frontend/src/app/(app)/checklists/page.tsx"

/-- The start-marker literal of source line 6 (a JSX line; braces written as
escapes). -/
def startMarker : String := "              \x7bitems.map((item, index) => ("

/-- The end-marker literal of source line 12. -/
def endMarker : String := "            </div>"

/-- Python list indexing `lines[k]` for a possibly negative index `k`:
a negative `k` counts from the end (`lines[k]` is `lines[len + k]`), and an
index out of range on either side yields `none` (Python raises `IndexError`). -/
def pyGet (lines : List String) (k : Int) : Option String :=
  if 0 ≤ k then lines[k.toNat]?
  else if 0 ≤ k + lines.length then lines[(k + lines.length).toNat]?
  else none

/-- The start scan (source lines 4–8): `for i, line in enumerate(lines)`,
started at position `i`, returning `some (i₀ - 1)` for the first position `i₀`
whose line equals `sm` (Python sets `start = i - 1` and breaks), else `none`. -/
def startScanFrom (sm : String) : List String → Nat → Option Int
  | [], _ => none
  | l :: ls, i => if l = sm then some ((i : Int) - 1) else startScanFrom sm ls (i + 1)

/-- The whole start scan, from the beginning of the sequence. -/
def startScan (lines : List String) (sm : String) : Option Int :=
  startScanFrom sm lines 0

/-- One-iteration-per-fuel-unit unfolding of the while loop of source
lines 12–13: `while end < len(lines) and lines[end] != em: end += 1`.
`some e'` is the loop's exit value of `end`; `none` means the body evaluated
`lines[end]` out of range (Python would raise `IndexError`).  Fuel `d` bounds
the number of loop-condition checks; `endScan` supplies enough fuel for the
loop to finish, and `endScanSteps_fuel` below shows any larger fuel gives the
same result. -/
def endScanSteps (lines : List String) (em : String) : Nat → Int → Option Int
  | 0, e => some e
  | d + 1, e =>
    if e < (lines.length : Int) then
      match pyGet lines e with
      | none => none
      | some l => if l = em then some e else endScanSteps lines em d (e + 1)
    else some e

/-- The while loop of source lines 12–13, run from `end = e` to completion.
Since `end` increases by 1 each iteration and the loop stops as soon as
`end ≥ len(lines)`, `(len - e)⁺` condition checks always suffice. -/
def endScan (lines : List String) (em : String) (e : Int) : Option Int :=
  endScanSteps lines em ((lines.length : Int) - e).toNat e

/-- Outcome of the locator (source lines 4–15): a found range, or a fatal
`SystemExit` with the given message, or an `IndexError` escaping the loop
body. -/
inductive LocResult where
  | ok (start stop : Int)
  | fatal (msg : String)
  | indexError
deriving DecidableEq

/-- The locator, source lines 4–15: start scan, `raise SystemExit('start not
found')` when it fails, then the end-scan while loop from `end = start`, then
`raise SystemExit('end not found')` when `end >= len(lines)`. -/
def locate (lines : List String) (sm em : String) : LocResult :=
  match startScan lines sm with
  | none => .fatal "start not found"
  | some st =>
    match endScan lines em st with
    | none => .indexError
    | some e => if (lines.length : Int) ≤ e then .fatal "end not found" else .ok st e

/-- Process exit status: `raise SystemExit(msg)` with a string argument makes
the Python interpreter print the message to stderr and exit with status 1; an
uncaught `IndexError` also exits non-zero. -/
def exitStatus : LocResult → Nat
  | .ok _ _ => 0
  | .fatal _ => 1
  | .indexError => 1

/-- Python `str.splitlines()` for newline-separated text: split on `"\n"` and
drop the empty piece a trailing newline produces (`"".splitlines() == []`). -/
def pySplitlines (s : String) : List String :=
  let parts := s.splitOn "\n"
  if parts.getLast? = some "" then parts.dropLast else parts

/-- The replacement fragment the script assembles (source lines 16–32).  The
triple-quoted literal is never terminated — the source file ends inside it —
so this is the fragment text as written up to end of file; it is assembled and
then never used.  Braces are written as escapes. -/
def new_block : String :=
  "\n            <div className=\"space-y-2\">\n              \x7bitems.map((item, index) => (\n                <div key=\x7bitem.id\x7d className=\"flex flex-wrap items-center gap-2\">\n                  <span className=\"text-xs font-semibold text-muted-foreground\">\x7bindex + 1\x7d.</span>\n                  <input\n                    type=\"text\"\n                    value=\x7bitem.title\x7d\n                    onChange=\x7b(event) => handleItemChange(item.id, event.target.value)\x7d\n                    placeholder=\"Describe the step to complete\"\n                    className=\"flex-1 min-w-[200px] rounded border border-border bg-background px-3 py-2 text-sm focus:border-primary focus:outline-none\"\n                  />\n                  <div className=\"flex items-center gap-1\">\n                    <button\n                      type=\"button\"\n                      onClick=lambda direction=-1: None\n"

/-- Outcome of a whole run of the script. -/
inductive ScriptOutcome where
  | fileError
  | exited (msg : String)
  | indexError
  | incomplete (start stop : Int) (fragment : String)

/-- The whole script, run against a filesystem modelled as a partial map from
paths to file contents: read the target file (lines 1–3), run the locator
(lines 4–15), then assemble `new_block` (lines 16–32) — after which the source
file simply ends, mid string literal, so nothing is ever written: every branch
returns the filesystem unchanged.  `fileError` models `read_text` raising when
the path is absent. -/
def runScript (fs : String → Option String) : (String → Option String) × ScriptOutcome :=
  match fs targetPath with
  | none => (fs, .fileError)
  | some content =>
    match locate (pySplitlines content) startMarker endMarker with
    | .fatal m => (fs, .exited m)
    | .indexError => (fs, .indexError)
    | .ok s e => (fs, .incomplete s e new_block)

/-- State of the while loop of source lines 12–13: the list being scanned and
the mutable variable `end`. -/
structure EndLoopState where
  lines : List String
  cur : Int

/-- The while loop as a state machine: each iteration whose condition
`end < len(lines) and lines[end] != em` holds runs the body `end += 1`; the
body touches only `cur`, never `lines`. -/
def endLoopRun (em : String) : Nat → EndLoopState → EndLoopState
  | 0, s => s
  | d + 1, s =>
    if s.cur < (s.lines.length : Int) ∧ pyGet s.lines s.cur ≠ some em then
      endLoopRun em d ⟨s.lines, s.cur + 1⟩
    else s

/-- State of the for loop of source lines 4–8: the list being scanned and the
variable `start` (Python `None` is `none`). -/
structure StartLoopState where
  lines : List String
  found : Option Int

/-- The for loop as a state machine over the remaining lines: on a match it
sets `start := i - 1` and breaks; it never writes to `lines`. -/
def startLoopRun (sm : String) : List String → Nat → StartLoopState → StartLoopState
  | [], _, s => s
  | l :: ls, i, s =>
    if l = sm then ⟨s.lines, some ((i : Int) - 1)⟩ else startLoopRun sm ls (i + 1) s

theorem pyGet_nonneg (lines : List String) {k : Int} (hk : 0 ≤ k) :
    pyGet lines k = lines[k.toNat]? := by
  simp [pyGet, hk]

theorem pyGet_natCast (lines : List String) (i : Nat) : pyGet lines (i : Int) = lines[i]? := by
  rw [pyGet_nonneg lines (by omega)]
  simp

theorem pyGet_neg_one (lines : List String) : pyGet lines (-1) = lines.getLast? := by
  rw [List.getLast?_eq_getElem?]
  unfold pyGet
  rcases lines with _ | ⟨a, tl⟩
  · rfl
  · have h1 : ¬ (0 : Int) ≤ -1 := by omega
    have h2 : (0 : Int) ≤ -1 + (a :: tl).length := by
      simp only [List.length_cons]
      omega
    rw [if_neg h1, if_pos h2]
    congr 1
    simp only [List.length_cons]
    omega

theorem pyGet_isSome (lines : List String) {k : Int} (h1 : -1 ≤ k)
    (h2 : k < (lines.length : Int)) (h3 : 0 < lines.length) :
    ∃ l, pyGet lines k = some l := by
  rcases le_or_lt 0 k with hk | hk
  · rw [pyGet_nonneg lines hk]
    exact ⟨_, List.getElem?_eq_getElem (by omega)⟩
  · have hk1 : k = -1 := by omega
    subst hk1
    rw [pyGet_neg_one, List.getLast?_eq_getElem?]
    exact ⟨_, List.getElem?_eq_getElem (by omega)⟩

theorem startScanFrom_none (sm : String) :
    ∀ (ls : List String) (i : Nat), (∀ l ∈ ls, l ≠ sm) → startScanFrom sm ls i = none
  | [], _, _ => rfl
  | l :: ls, i, h => by
    have hl : l ≠ sm := h l (List.mem_cons_self l ls)
    simp only [startScanFrom, if_neg hl]
    exact startScanFrom_none sm ls (i + 1) fun x hx => h x (List.mem_cons_of_mem l hx)

theorem startScanFrom_found (sm : String) :
    ∀ (ls : List String) (i j : Nat), ls[j]? = some sm → (∀ k, k < j → ls[k]? ≠ some sm) →
      startScanFrom sm ls i = some (((i + j : Nat) : Int) - 1)
  | [], i, j, hj, _ => by simp at hj
  | l :: ls, i, j, hj, hmin => by
    cases j with
    | zero =>
      simp only [List.getElem?_cons_zero, Option.some.injEq] at hj
      simp only [startScanFrom, if_pos hj, Option.some.injEq]
      omega
    | succ j =>
      have hl : l ≠ sm := by
        intro hcontra
        exact hmin 0 (Nat.succ_pos j) (by simp [hcontra])
      simp only [startScanFrom, if_neg hl]
      have := startScanFrom_found sm ls (i + 1) j (by simpa using hj)
        (fun k hk => by simpa using hmin (k + 1) (by omega))
      rw [this]
      simp only [Option.some.injEq]
      omega

theorem startScanFrom_some_inv (sm : String) :
    ∀ (ls : List String) (i : Nat) (s : Int), startScanFrom sm ls i = some s →
      ∃ j : Nat, ls[j]? = some sm ∧ (∀ k, k < j → ls[k]? ≠ some sm) ∧
        s = ((i + j : Nat) : Int) - 1
  | [], _, _, h => by simp [startScanFrom] at h
  | l :: ls, i, s, h => by
    by_cases hl : l = sm
    · simp only [startScanFrom, if_pos hl, Option.some.injEq] at h
      refine ⟨0, by simp [hl], fun k hk => absurd hk (Nat.not_lt_zero k), ?_⟩
      omega
    · simp only [startScanFrom, if_neg hl] at h
      obtain ⟨j, hj, hmin, hs⟩ := startScanFrom_some_inv sm ls (i + 1) s h
      refine ⟨j + 1, by simpa using hj, ?_, by omega⟩
      intro k hk
      cases k with
      | zero => simpa using hl
      | succ k => simpa using hmin k (by omega)

theorem startScan_some_iff (lines : List String) (sm : String) (s : Int) :
    startScan lines sm = some s ↔
      ∃ i : Nat, lines[i]? = some sm ∧ (∀ k, k < i → lines[k]? ≠ some sm) ∧
        s = (i : Int) - 1 := by
  constructor
  · intro h
    obtain ⟨j, hj, hmin, hs⟩ := startScanFrom_some_inv sm lines 0 s h
    exact ⟨j, hj, hmin, by omega⟩
  · rintro ⟨i, hi, hmin, hs⟩
    have h0 := startScanFrom_found sm lines 0 i hi hmin
    show startScanFrom sm lines 0 = some s
    rw [h0]
    simp only [Option.some.injEq]
    omega

theorem startScan_none (lines : List String) (sm : String)
    (h : ∀ k, k < lines.length → lines[k]? ≠ some sm) : startScan lines sm = none := by
  apply startScanFrom_none
  intro l hl hcontra
  obtain ⟨n, hn⟩ := List.mem_iff_getElem?.mp hl
  obtain ⟨hlt, -⟩ := List.getElem?_eq_some.mp hn
  exact h n hlt (by rw [hn, hcontra])

theorem endScanSteps_ge (lines : List String) (em : String) :
    ∀ (d : Nat) (e e' : Int), endScanSteps lines em d e = some e' → e ≤ e' := by
  intro d
  induction d with
  | zero =>
    intro e e' h
    simp only [endScanSteps, Option.some.injEq] at h
    omega
  | succ d ih =>
    intro e e' h
    simp only [endScanSteps] at h
    by_cases he : e < (lines.length : Int)
    · rw [if_pos he] at h
      rcases hp : pyGet lines e with _ | l
      · simp [hp] at h
      · simp only [hp] at h
        by_cases hl : l = em
        · rw [if_pos hl] at h
          simp only [Option.some.injEq] at h
          omega
        · rw [if_neg hl] at h
          have := ih (e + 1) e' h
          omega
    · rw [if_neg he] at h
      simp only [Option.some.injEq] at h
      omega

theorem endScanSteps_le (lines : List String) (em : String) :
    ∀ (d : Nat) (e e' : Int), e ≤ (lines.length : Int) →
      endScanSteps lines em d e = some e' → e' ≤ (lines.length : Int) := by
  intro d
  induction d with
  | zero =>
    intro e e' he h
    simp only [endScanSteps, Option.some.injEq] at h
    omega
  | succ d ih =>
    intro e e' he h
    simp only [endScanSteps] at h
    by_cases helen : e < (lines.length : Int)
    · rw [if_pos helen] at h
      rcases hp : pyGet lines e with _ | l
      · simp [hp] at h
      · simp only [hp] at h
        by_cases hl : l = em
        · rw [if_pos hl] at h
          simp only [Option.some.injEq] at h
          omega
        · rw [if_neg hl] at h
          exact ih (e + 1) e' (by omega) h
    · rw [if_neg helen] at h
      simp only [Option.some.injEq] at h
      omega

theorem endScanSteps_fuel (lines : List String) (em : String) :
    ∀ (d : Nat) (e : Int), ((lines.length : Int) - e).toNat ≤ d →
      endScanSteps lines em d e = endScan lines em e := by
  intro d
  induction d with
  | zero =>
    intro e h
    unfold endScan
    have h0 : ((lines.length : Int) - e).toNat = 0 := by omega
    rw [h0]
  | succ d ih =>
    intro e h
    unfold endScan
    by_cases he : e < (lines.length : Int)
    · have hb : ((lines.length : Int) - e).toNat =
          ((lines.length : Int) - (e + 1)).toNat + 1 := by omega
      rw [hb]
      simp only [endScanSteps]
      rw [if_pos he, if_pos he]
      rcases hp : pyGet lines e with _ | l
      · simp only [hp]
      · simp only [hp]
        by_cases hl : l = em
        · rw [if_pos hl, if_pos hl]
        · rw [if_neg hl, if_neg hl, ih (e + 1) (by omega)]
          rfl
    · have hb : ((lines.length : Int) - e).toNat = 0 := by omega
      rw [hb]
      simp only [endScanSteps]
      rw [if_neg he]

theorem endScanSteps_stop (lines : List String) (em : String) :
    ∀ (d : Nat) (e e' : Int), ((lines.length : Int) - e).toNat ≤ d →
      endScanSteps lines em d e = some e' → e' < (lines.length : Int) →
      pyGet lines e' = some em := by
  intro d
  induction d with
  | zero =>
    intro e e' hf h he'
    simp only [endScanSteps, Option.some.injEq] at h
    omega
  | succ d ih =>
    intro e e' hf h he'
    simp only [endScanSteps] at h
    by_cases helen : e < (lines.length : Int)
    · rw [if_pos helen] at h
      rcases hp : pyGet lines e with _ | l
      · simp [hp] at h
      · simp only [hp] at h
        by_cases hl : l = em
        · rw [if_pos hl] at h
          simp only [Option.some.injEq] at h
          subst h
          rw [hp, hl]
        · rw [if_neg hl] at h
          exact ih (e + 1) e' (by omega) h he'
    · rw [if_neg helen] at h
      simp only [Option.some.injEq] at h
      omega

theorem endScanSteps_skip (lines : List String) (em : String) :
    ∀ (d : Nat) (e e' : Int), endScanSteps lines em d e = some e' →
      ∀ k : Int, e ≤ k → k < e' → pyGet lines k ≠ some em := by
  intro d
  induction d with
  | zero =>
    intro e e' h k hk1 hk2
    simp only [endScanSteps, Option.some.injEq] at h
    omega
  | succ d ih =>
    intro e e' h k hk1 hk2
    simp only [endScanSteps] at h
    by_cases helen : e < (lines.length : Int)
    · rw [if_pos helen] at h
      rcases hp : pyGet lines e with _ | l
      · simp [hp] at h
      · simp only [hp] at h
        by_cases hl : l = em
        · rw [if_pos hl] at h
          simp only [Option.some.injEq] at h
          omega
        · rw [if_neg hl] at h
          rcases eq_or_lt_of_le hk1 with heq | hlt
          · subst heq
            rw [hp]
            intro hcontra
            simp only [Option.some.injEq] at hcontra
            exact hl hcontra
          · exact ih (e + 1) e' h k (by omega) hk2
    · rw [if_neg helen] at h
      simp only [Option.some.injEq] at h
      omega

theorem endScanSteps_reach (lines : List String) (em : String) :
    ∀ (d : Nat) (e j : Int), ((lines.length : Int) - e).toNat ≤ d → -1 ≤ e → e ≤ j →
      j < (lines.length : Int) → pyGet lines j = some em →
      (∀ k : Int, e ≤ k → k < j → pyGet lines k ≠ some em) →
      endScanSteps lines em d e = some j := by
  intro d
  induction d with
  | zero =>
    intro e j hf he hej hj hpj hskip
    omega
  | succ d ih =>
    intro e j hf he hej hj hpj hskip
    have helen : e < (lines.length : Int) := by omega
    simp only [endScanSteps]
    rw [if_pos helen]
    rcases eq_or_lt_of_le hej with heq | hlt
    · subst heq
      simp [hpj]
    · have hlen0 : 0 < lines.length := by omega
      obtain ⟨l, hl⟩ := pyGet_isSome lines he helen hlen0
      have hlne : l ≠ em := by
        intro hcontra
        exact hskip e le_rfl hlt (by rw [hl, hcontra])
      simp only [hl]
      rw [if_neg hlne]
      exact ih (e + 1) j (by omega) (by omega) (by omega) hj hpj
        fun k hk1 hk2 => hskip k (by omega) hk2

theorem endScanSteps_all_miss (lines : List String) (em : String) :
    ∀ (d : Nat) (e : Int), ((lines.length : Int) - e).toNat ≤ d → -1 ≤ e →
      e ≤ (lines.length : Int) → 0 < lines.length →
      (∀ k : Int, e ≤ k → k < (lines.length : Int) → pyGet lines k ≠ some em) →
      endScanSteps lines em d e = some (lines.length : Int) := by
  intro d
  induction d with
  | zero =>
    intro e hf he hlen hlen0 hskip
    have heq : e = (lines.length : Int) := by omega
    simp [endScanSteps, heq]
  | succ d ih =>
    intro e hf he hlen hlen0 hskip
    simp only [endScanSteps]
    by_cases helen : e < (lines.length : Int)
    · rw [if_pos helen]
      obtain ⟨l, hl⟩ := pyGet_isSome lines he helen hlen0
      have hlne : l ≠ em := by
        intro hcontra
        exact hskip e le_rfl helen (by rw [hl, hcontra])
      simp only [hl]
      rw [if_neg hlne]
      exact ih (e + 1) (by omega) (by omega) (by omega) hlen0
        fun k hk1 hk2 => hskip k (by omega) hk2
    · rw [if_neg helen]
      have heq : e = (lines.length : Int) := by omega
      rw [heq]

theorem endScan_stop_now (lines : List String) (em : String) (e e' : Int)
    (h : endScan lines em e = some e') (hp : pyGet lines e = some em) : e' = e := by
  unfold endScan at h
  rcases hb : ((lines.length : Int) - e).toNat with _ | n
  · rw [hb] at h
    simp only [endScanSteps, Option.some.injEq] at h
    omega
  · rw [hb] at h
    simp only [endScanSteps] at h
    by_cases he : e < (lines.length : Int)
    · rw [if_pos he] at h
      simp [hp] at h
      omega
    · rw [if_neg he] at h
      simp only [Option.some.injEq] at h
      omega

theorem endScan_first_probe (lines : List String) (em : String) (s e : Int)
    (h : endScan lines em s = some e) (hlt : s < (lines.length : Int)) (heq : e = s) :
    pyGet lines s = some em := by
  unfold endScan at h
  rcases hb : ((lines.length : Int) - s).toNat with _ | n
  · omega
  · rw [hb] at h
    simp only [endScanSteps] at h
    rw [if_pos hlt] at h
    rcases hp : pyGet lines s with _ | l
    · simp [hp] at h
    · simp only [hp] at h
      by_cases hl : l = em
      · rw [← hl]
      · rw [if_neg hl] at h
        have := endScanSteps_ge lines em n (s + 1) e h
        omega

theorem locate_ok_inv (lines : List String) (sm em : String) (s e : Int)
    (h : locate lines sm em = LocResult.ok s e) :
    startScan lines sm = some s ∧ endScan lines em s = some e ∧
      e < (lines.length : Int) := by
  unfold locate at h
  rcases hs : startScan lines sm with _ | st
  · simp [hs] at h
  · simp only [hs] at h
    rcases hE : endScan lines em st with _ | e0
    · simp [hE] at h
    · simp only [hE] at h
      by_cases hle : (lines.length : Int) ≤ e0
      · rw [if_pos hle] at h
        exact absurd h (by simp)
      · rw [if_neg hle] at h
        simp only [LocResult.ok.injEq] at h
        obtain ⟨h1, h2⟩ := h
        subst h1
        subst h2
        exact ⟨rfl, hE, by omega⟩

theorem endLoopRun_lines (em : String) : ∀ (d : Nat) (s : EndLoopState),
    (endLoopRun em d s).lines = s.lines := by
  intro d
  induction d with
  | zero => intro s; rfl
  | succ d ih =>
    intro s
    simp only [endLoopRun]
    split
    · exact ih ⟨s.lines, s.cur + 1⟩
    · rfl

theorem startLoopRun_lines (sm : String) : ∀ (ls : List String) (i : Nat) (t : StartLoopState),
    (startLoopRun sm ls i t).lines = t.lines
  | [], _, _ => rfl
  | l :: ls, i, t => by
    simp only [startLoopRun]
    split
    · rfl
    · exact startLoopRun_lines sm ls (i + 1) t

theorem startLoopRun_found (sm : String) : ∀ (ls : List String) (i : Nat) (lines0 : List String),
    (startLoopRun sm ls i ⟨lines0, none⟩).found = startScanFrom sm ls i
  | [], _, _ => rfl
  | l :: ls, i, lines0 => by
    simp only [startLoopRun, startScanFrom]
    by_cases hl : l = sm
    · rw [if_pos hl, if_pos hl]
    · rw [if_neg hl, if_neg hl]
      exact startLoopRun_found sm ls (i + 1) lines0

/-- C1 (counterexample).  The claim says: when the start-marker first occurs at
index `i` and the end-marker first occurs at an index `j > i`, the locator
returns the range `(i-1, j)`.  On `["END","MARK","b","END"]` with markers
`"MARK"`/`"END"` we have `i = 1` (first occurrence) and `j = 3` (first
occurrence above `i`), yet the code returns `(0, 0)`, not `(0, 3)`: the end
scan starts at index `i - 1 = 0`, whose line already equals the end-marker. -/
theorem C1_counterexample :
    (["END", "MARK", "b", "END"] : List String)[1]? = some "MARK" ∧
    (∀ k, k < 1 → (["END", "MARK", "b", "END"] : List String)[k]? ≠ some "MARK") ∧
    (["END", "MARK", "b", "END"] : List String)[3]? = some "END" ∧ 1 < 3 ∧
    (∀ k, k < 3 → 1 < k → (["END", "MARK", "b", "END"] : List String)[k]? ≠ some "END") ∧
    locate ["END", "MARK", "b", "END"] "MARK" "END" = LocResult.ok 0 0 ∧
    LocResult.ok (0 : Int) (0 : Int) ≠ LocResult.ok 0 3 := by
  decide

/-- C1 (amended).  For the first occurrence `i` of the start-marker and the
first occurrence `j > i` of the end-marker, the locator succeeds with the
range `(i-1, j)` — provided additionally that the line at the scan's actual
initial index `i - 1` (the last line, by Python negative indexing, when
`i = 0`) is not the end-marker and the two markers differ, since the code
starts the end scan at `i - 1` rather than after the start line. -/
theorem C1_locator_range (lines : List String) (sm em : String) (i j : Nat)
    (hi : lines[i]? = some sm)
    (hifirst : ∀ k, k < i → lines[k]? ≠ some sm)
    (hj : lines[j]? = some em)
    (hij : i < j)
    (hjfirst : ∀ k, k < j → i < k → lines[k]? ≠ some em)
    (hprev : pyGet lines ((i : Int) - 1) ≠ some em)
    (hne : sm ≠ em) :
    locate lines sm em = LocResult.ok ((i : Int) - 1) (j : Int) := by
  have hstart : startScan lines sm = some ((i : Int) - 1) :=
    (startScan_some_iff lines sm _).mpr ⟨i, hi, hifirst, rfl⟩
  have hilen : i < lines.length := (List.getElem?_eq_some.mp hi).1
  have hjlen : j < lines.length := (List.getElem?_eq_some.mp hj).1
  have hskip : ∀ k : Int, (i : Int) - 1 ≤ k → k < (j : Int) → pyGet lines k ≠ some em := by
    intro k hk1 hk2
    rcases lt_or_le k i with hki | hki
    · have hkeq : k = (i : Int) - 1 := by omega
      rw [hkeq]
      exact hprev
    · have hk0 : (0 : Int) ≤ k := by omega
      rw [pyGet_nonneg lines hk0]
      rcases eq_or_lt_of_le hki with heq | hlt
      · have hkt : k.toNat = i := by omega
        rw [hkt, hi]
        simp [hne]
      · exact hjfirst k.toNat (by omega) (by omega)
  have hend : endScan lines em ((i : Int) - 1) = some (j : Int) := by
    unfold endScan
    exact endScanSteps_reach lines em _ _ _ (le_refl _) (by omega) (by omega) (by omega)
      (by rw [pyGet_natCast]; exact hj) hskip
  unfold locate
  simp only [hstart, hend]
  rw [if_neg (by omega : ¬ (lines.length : Int) ≤ (j : Int))]

/-- C1 (witness for the amended theorem, on the spec's own example). -/
theorem C1_locator_range_witness :
    locate ["a", "MARK", "b", "END"] "MARK" "END" = LocResult.ok ((1 : Int) - 1) ((3 : Nat) : Int) :=
  C1_locator_range ["a", "MARK", "b", "END"] "MARK" "END" 1 3
    (by decide) (by decide) (by decide) (by decide) (by decide) (by decide) (by decide)

/-- C2 (counterexample).  The claim says the end scan starts after the located
start, so a successful locate has `end > start`.  On `["END","MARK"]` with
markers `"MARK"`/`"END"` the locator succeeds with `start = end = 0`: the end
scan examined index 0, i.e. the located start index itself. -/
theorem C2_counterexample :
    locate ["END", "MARK"] "MARK" "END" = LocResult.ok 0 0 ∧ ¬ ((0 : Int) < (0 : Int)) := by
  decide

/-- C2 (amended).  The end scan begins at the located start index itself
(`end = start`, source line 11), not at the following index: on success
`start ≤ end` (not necessarily strictly), and `end = start` exactly when the
line at the located start index (read with Python indexing) equals the
end-marker — if it does the scan stops there at once, and if it does not the
scan has moved strictly past the start index. -/
theorem C2_scan_starts_at_start (lines : List String) (sm em : String) (s e : Int)
    (h : locate lines sm em = LocResult.ok s e) :
    s ≤ e ∧ (pyGet lines s = some em ↔ e = s) := by
  obtain ⟨hs, hE, hlt⟩ := locate_ok_inv lines sm em s e h
  have hge : s ≤ e := by
    have hE' := hE
    unfold endScan at hE'
    exact endScanSteps_ge lines em _ s e hE'
  have hslt : s < (lines.length : Int) := by omega
  exact ⟨hge, fun hp => endScan_stop_now lines em s e hE hp,
    fun heq => endScan_first_probe lines em s e hE hslt heq⟩

/-- C2 (witness for the amended theorem). -/
theorem C2_scan_starts_at_start_witness :
    (0 : Int) ≤ (0 : Int) ∧ (pyGet ["END", "MARK"] 0 = some "END" ↔ (0 : Int) = (0 : Int)) :=
  C2_scan_starts_at_start ["END", "MARK"] "MARK" "END" 0 0 (by decide)

/-- C3 (counterexample).  The claim says: start-marker found but end-marker
absent after it fails with "end not found".  On `["END","MARK"]` with markers
`"MARK"`/`"END"` the start-marker is at index 1, the end-marker occurs nowhere
after index 1, yet the locator succeeds with `(0, 0)` because the end scan
also examines index `i - 1 = 0`, where the end-marker sits. -/
theorem C3_counterexample :
    (["END", "MARK"] : List String)[1]? = some "MARK" ∧
    (∀ k : Nat, 1 < k → (["END", "MARK"] : List String)[k]? ≠ some "END") ∧
    locate ["END", "MARK"] "MARK" "END" = LocResult.ok 0 0 ∧
    locate ["END", "MARK"] "MARK" "END" ≠ LocResult.fatal "end not found" := by
  refine ⟨by decide, ?_, by decide, by decide⟩
  intro k hk
  have hnone : (["END", "MARK"] : List String)[k]? = none :=
    List.getElem?_eq_none (by simp only [List.length_cons, List.length_nil]; omega)
  rw [hnone]
  simp

/-- C3 (amended).  If the end-marker occurs neither at the scan's actual
initial index `i - 1` (the last line, by Python negative indexing, when
`i = 0`) nor at any index `≥ i`, where `i` is the first occurrence of the
start-marker, then the locator fails with the fatal "end not found". -/
theorem C3_end_not_found (lines : List String) (sm em : String) (i : Nat)
    (hi : lines[i]? = some sm)
    (hifirst : ∀ k, k < i → lines[k]? ≠ some sm)
    (hprev : pyGet lines ((i : Int) - 1) ≠ some em)
    (habsent : ∀ k, k < lines.length → i ≤ k → lines[k]? ≠ some em) :
    locate lines sm em = LocResult.fatal "end not found" := by
  have hstart : startScan lines sm = some ((i : Int) - 1) :=
    (startScan_some_iff lines sm _).mpr ⟨i, hi, hifirst, rfl⟩
  have hilen : i < lines.length := (List.getElem?_eq_some.mp hi).1
  have hskip : ∀ k : Int, (i : Int) - 1 ≤ k → k < (lines.length : Int) →
      pyGet lines k ≠ some em := by
    intro k hk1 hk2
    rcases lt_or_le k i with hki | hki
    · have hkeq : k = (i : Int) - 1 := by omega
      rw [hkeq]
      exact hprev
    · have hk0 : (0 : Int) ≤ k := by omega
      rw [pyGet_nonneg lines hk0]
      exact habsent k.toNat (by omega) (by omega)
  have hend : endScan lines em ((i : Int) - 1) = some (lines.length : Int) := by
    unfold endScan
    exact endScanSteps_all_miss lines em _ _ (le_refl _) (by omega) (by omega) (by omega) hskip
  unfold locate
  simp only [hstart, hend]
  rw [if_pos (le_refl _)]

/-- C3 (witness for the amended theorem). -/
theorem C3_end_not_found_witness :
    locate ["a", "MARK", "b"] "MARK" "END" = LocResult.fatal "end not found" :=
  C3_end_not_found ["a", "MARK", "b"] "MARK" "END" 1
    (by decide) (by decide) (by decide) (by decide)

/-- C4 (confirmed).  If no line of the sequence equals the start-marker, the
locator raises the fatal `SystemExit` with the descriptive message "start not
found" — a non-zero (status 1) process exit — and this is independent of the
end-marker, which is universally quantified here: the end scan is never
reached. -/
theorem C4_start_not_found (lines : List String) (sm em : String)
    (h : ∀ k, k < lines.length → lines[k]? ≠ some sm) :
    locate lines sm em = LocResult.fatal "start not found" ∧
      exitStatus (locate lines sm em) = 1 := by
  have hs : startScan lines sm = none := startScan_none lines sm h
  have hloc : locate lines sm em = LocResult.fatal "start not found" := by
    unfold locate
    simp only [hs]
  exact ⟨hloc, by rw [hloc]; rfl⟩

/-- C4 (witness). -/
theorem C4_start_not_found_witness :
    locate ["a", "b"] "X" "END" = LocResult.fatal "start not found" ∧
      exitStatus (locate ["a", "b"] "X" "END") = 1 :=
  C4_start_not_found ["a", "b"] "X" "END" (by decide)

/-- C5 (confirmed).  Marker matching is exact whole-line string equality in
both scans: the start scan succeeds exactly on the first line equal
(character-for-character) to the marker, and the end scan stops only at a
line equal to the marker, skipping every unequal line in between — so a line
that merely contains the marker as a proper substring, being unequal to it,
is never matched by either scan. -/
theorem C5_exact_whole_line_match (lines : List String) (m : String) (s e e' : Int) :
    (startScan lines m = some s ↔
      ∃ i : Nat, lines[i]? = some m ∧ (∀ k, k < i → lines[k]? ≠ some m) ∧
        s = (i : Int) - 1) ∧
    (endScan lines m e = some e' → e' < (lines.length : Int) → pyGet lines e' = some m) ∧
    (endScan lines m e = some e' → ∀ k : Int, e ≤ k → k < e' → pyGet lines k ≠ some m) := by
  refine ⟨startScan_some_iff lines m s, fun h he' => ?_, fun h => ?_⟩
  · unfold endScan at h
    exact endScanSteps_stop lines m _ e e' (le_refl _) h he'
  · unfold endScan at h
    exact endScanSteps_skip lines m _ e e' h

/-- C5 (witness): a line properly containing the marker is skipped; the scan
stops only at the exactly-equal line. -/
theorem C5_exact_whole_line_match_witness :
    startScan ["xxMARKxx", "MARK"] "MARK" = some 0 :=
  ((C5_exact_whole_line_match ["xxMARKxx", "MARK"] "MARK" 0 0 0).1).mpr
    ⟨1, by decide, by decide, by decide⟩

/-- C6 (confirmed).  The script never writes anything back to disk: a whole
run maps every filesystem to itself, whatever the target file's content and
whether the locator succeeds, exits fatally on a missing marker, or the file
is missing — no branch of the source contains a write, and the source in fact
ends mid string-literal before any write could appear. -/
theorem C6_no_write (fs : String → Option String) (p : String) :
    (runScript fs).1 p = fs p := by
  cases hf : fs targetPath with
  | none => simp [runScript, hf]
  | some content =>
    cases hl : locate (pySplitlines content) startMarker endMarker with
    | ok s e => simp [runScript, hf, hl]
    | fatal m => simp [runScript, hf, hl]
    | indexError => simp [runScript, hf, hl]

/-- C7 (confirmed).  The locator is a pure scan: the for-loop and the
while-loop state machines never write to the list of lines (their bodies only
read it, updating only the loop variable), and the for loop computes exactly
the pure function `startScanFrom` of the lines and the marker — the locator's
result is a function of the sequence of lines and the two markers alone. -/
theorem C7_pure_scan (sm em : String) (d : Nat) (ls : List String) (i : Nat)
    (s : EndLoopState) (t : StartLoopState) :
    (endLoopRun em d s).lines = s.lines ∧
    (startLoopRun sm ls i t).lines = t.lines ∧
    (startLoopRun sm ls i ⟨t.lines, none⟩).found = startScanFrom sm ls i :=
  ⟨endLoopRun_lines em d s, startLoopRun_lines sm ls i t, startLoopRun_found sm ls i t.lines⟩

/-- C8 (confirmed).  Negative-index edge case: when the start-marker is the
first line, `start = -1` and the end scan's first probe is `lines[-1]`, which
Python resolves to the last line; if that last line equals the end-marker the
locator succeeds immediately with `start = end = -1` and no error. -/
theorem C8_negative_index_wrap (lines : List String) (sm em : String)
    (h0 : lines[0]? = some sm) (hlast : lines.getLast? = some em) :
    locate lines sm em = LocResult.ok (-1) (-1) := by
  have hlen : 0 < lines.length := (List.getElem?_eq_some.mp h0).1
  have hstart : startScan lines sm = some (-1) :=
    (startScan_some_iff lines sm (-1)).mpr
      ⟨0, h0, fun k hk => absurd hk (Nat.not_lt_zero k), by omega⟩
  have hpg : pyGet lines (-1) = some em := by
    rw [pyGet_neg_one]
    exact hlast
  have hend : endScan lines em (-1) = some (-1) := by
    unfold endScan
    exact endScanSteps_reach lines em _ (-1) (-1) (le_refl _) (le_refl _) (le_refl _)
      (by omega) hpg (fun k hk1 hk2 => absurd hk2 (by omega))
  unfold locate
  simp only [hstart, hend]
  rw [if_neg (by omega : ¬ (lines.length : Int) ≤ -1)]

/-- C8 (witness). -/
theorem C8_negative_index_wrap_witness :
    locate ["S", "E"] "S" "E" = LocResult.ok (-1) (-1) :=
  C8_negative_index_wrap ["S", "E"] "S" "E" (by decide) (by decide)

/-- C9 (confirmed).  Success invariant: a successful locate returns
`start ≤ end < len(lines)`, the line at the end index (read with Python
indexing, so index `-1` is the last line) equals the end-marker, and no index
in `[start, end)` holds a line equal to the end-marker — the end index is the
least match at or after the start index. -/
theorem C9_success_invariant (lines : List String) (sm em : String) (s e : Int)
    (h : locate lines sm em = LocResult.ok s e) :
    s ≤ e ∧ e < (lines.length : Int) ∧ pyGet lines e = some em ∧
      ∀ k : Int, s ≤ k → k < e → pyGet lines k ≠ some em := by
  obtain ⟨hs, hE, hlt⟩ := locate_ok_inv lines sm em s e h
  unfold endScan at hE
  exact ⟨endScanSteps_ge lines em _ s e hE, hlt,
    endScanSteps_stop lines em _ s e (le_refl _) hE hlt,
    endScanSteps_skip lines em _ s e hE⟩

/-- C9 (witness). -/
theorem C9_success_invariant_witness :
    (0 : Int) ≤ 3 ∧ (3 : Int) < ((["a", "MARK", "b", "END"] : List String).length : Int) ∧
      pyGet ["a", "MARK", "b", "END"] 3 = some "END" ∧
      ∀ k : Int, 0 ≤ k → k < 3 → pyGet ["a", "MARK", "b", "END"] k ≠ some "END" :=
  C9_success_invariant ["a", "MARK", "b", "END"] "MARK" "END" 0 3 (by decide)

/-- C10 (confirmed).  Termination: the end-scan while loop strictly increases
`end` and stops once `end` reaches `len(lines)`, so it finishes within
`(len - end₀)⁺` condition checks — any fuel at least that large computes the
loop's exit value `endScan` — and the exit value is bounded by
`max end₀ len`; the start scan is structural recursion over the finite list.
Hence the embedded locator is a total function of its input. -/
theorem C10_termination (lines : List String) (em : String) (d : Nat) (e e' : Int) :
    (((lines.length : Int) - e).toNat ≤ d →
      endScanSteps lines em d e = endScan lines em e) ∧
    (endScan lines em e = some e' → e ≤ e' ∧ e' ≤ max e (lines.length : Int)) := by
  refine ⟨endScanSteps_fuel lines em d e, fun h => ?_⟩
  have hge : e ≤ e' := by
    have h' := h
    unfold endScan at h'
    exact endScanSteps_ge lines em _ e e' h'
  refine ⟨hge, ?_⟩
  rcases le_or_lt e (lines.length : Int) with hle | hgt
  · have h' := h
    unfold endScan at h'
    exact le_trans (endScanSteps_le lines em _ e e' hle h') (le_max_right e _)
  · have h' := h
    unfold endScan at h'
    have hb : ((lines.length : Int) - e).toNat = 0 := by omega
    rw [hb] at h'
    simp only [endScanSteps, Option.some.injEq] at h'
    have he' : e' = e := by omega
    rw [he']
    exact le_max_left e _

/-- C10 (witness). -/
theorem C10_termination_witness :
    endScanSteps ["a", "b"] "X" 9 0 = endScan ["a", "b"] "X" 0 :=
  (C10_termination ["a", "b"] "X" 9 0 0).1 (by decide)

end OnTrack
